import Mathlib

/-!
Shallow embedding of PyLog (`logger.py`), a minimal leveled console/file
logger, together with proofs about its specified behaviour.

Modelling conventions:
* the file system is an `Option String`: the contents of the single log
  file `logs.txt`, or `none` when that file does not exist;
* console output of one call is the list of lines it prints;
* each emit method returns the (unchanged) logger state, the new
  file-system state and the console lines, in that order;
* a raised Python exception is an explicit error value.
-/

namespace PyLog

/-- The `LogLevel` enumeration of `logger.py`: `Info`, `Warning`, `Error`. -/
inductive LogLevel where
  | Info
  | Warning
  | Error
deriving DecidableEq, Repr

/-- The day/month/year fields of the `datetime.now()` value captured once
in `Logger.__init__`. -/
structure Date where
  day : Nat
  month : Nat
  year : Nat
deriving DecidableEq, Repr

/-- The mutable state of a `Logger` instance: its fields `log_level`,
`_log_to_file`, `_date` and `_filename`. -/
structure Logger where
  log_level : LogLevel
  log_to_file : Bool
  date : Date
  filename : String
deriving DecidableEq, Repr

/-- ANSI constant `self.RESET` from `Logger.__init__`. -/
def RESET : String := "\x1b[0m"

/-- ANSI constant `self.RED`. -/
def RED : String := "\x1b[0;31m"

/-- ANSI constant `self.BLUE`. -/
def BLUE : String := "\x1b[0;36m"

/-- ANSI constant `self.YELLOW`. -/
def YELLOW : String := "\x1b[0;33m"

/-- ANSI constant `self.BOLD`. -/
def BOLD : String := "\x1b[1m"

/-- `Logger.__init__`: store the level and mirror flag, capture the date,
fix the file name `logs.txt`. -/
def Logger.new (log_level : LogLevel) (log_to_file : Bool) (date : Date) : Logger :=
  { log_level := log_level, log_to_file := log_to_file, date := date, filename := "logs.txt" }

/-- `Logger.__log_level_to_string`: stringify the argument when given,
else the current level. -/
def log_level_to_string (logger : Logger) (log_level : Option LogLevel) : String :=
  match log_level.getD logger.log_level with
  | .Info => "info"
  | .Warning => "warning"
  | .Error => "error"

/-- `Logger.__format_date`: `dd/mm/yyyy`, day and month zero-padded when
below 10, year as is. -/
def format_date (logger : Logger) : String :=
  let day := Nat.repr logger.date.day
  let month := Nat.repr logger.date.month
  let day := if logger.date.day < 10 then "0" ++ day else day
  let month := if logger.date.month < 10 then "0" ++ month else month
  day ++ "/" ++ month ++ "/" ++ Nat.repr logger.date.year

/-- The escape character `\x1B` that starts every ANSI sequence. -/
def escChar : Char := '\x1b'

/-- Final byte of a two-byte escape sequence: the regex class
`[@-Z\\-_]`, i.e. `0x40`-`0x5A` or `0x5C`-`0x5F`. -/
def isTwoByteFinal (c : Char) : Bool :=
  (decide (0x40 ≤ c.toNat) && decide (c.toNat ≤ 0x5A)) ||
    (decide (0x5C ≤ c.toNat) && decide (c.toNat ≤ 0x5F))

/-- CSI parameter byte: the regex class from `0` to `?`, i.e. `0x30`-`0x3F`. -/
def isCsiParam (c : Char) : Bool :=
  decide (0x30 ≤ c.toNat) && decide (c.toNat ≤ 0x3F)

/-- CSI intermediate byte: the regex class from space to slash, i.e.
`0x20`-`0x2F`. -/
def isCsiInter (c : Char) : Bool :=
  decide (0x20 ≤ c.toNat) && decide (c.toNat ≤ 0x2F)

/-- CSI final byte: the regex class from `@` to `~`, i.e. `0x40`-`0x7E`. -/
def isCsiFinal (c : Char) : Bool :=
  decide (0x40 ≤ c.toNat) && decide (c.toNat ≤ 0x7E)

/-- Given the characters after an `ESC`, the remainder of the input after
a match of the source regex (a two-byte final, or `[` then parameter bytes
then intermediate bytes then one CSI final byte) at that point, or `none`
when the regex does not match there.  The branches are disjoint (the two
byte class excludes `[`), and inside the CSI branch the three byte classes
are pairwise disjoint, so greedy scanning needs no backtracking. -/
def matchEsc : List Char → Option (List Char)
  | [] => none
  | c :: rest =>
    if c = '[' then
      match (rest.dropWhile isCsiParam).dropWhile isCsiInter with
      | [] => none
      | f :: r => if isCsiFinal f then some r else none
    else if isTwoByteFinal c then some rest else none

/-- Fuel-indexed worker for Python's `re.sub`: scan left to right, delete
every match of the escape regex, keep every other character.  Every step
consumes at least one character, so `fuel = l.length` always suffices. -/
def stripAuxF : Nat → List Char → List Char
  | 0, l => l
  | _ + 1, [] => []
  | fuel + 1, c :: rest =>
    if c = escChar then
      match matchEsc rest with
      | some r => stripAuxF fuel r
      | none => c :: stripAuxF fuel rest
    else
      c :: stripAuxF fuel rest

/-- `re.sub` of the escape regex on a character list. -/
def stripChars (l : List Char) : List Char := stripAuxF l.length l

/-- `Logger.__strip_format`: remove all the ANSI escape codes from the
given string (Python `re.sub` with the regex above). -/
def strip_format (input_string : String) : String :=
  String.mk (stripChars input_string.data)

/-- Python's `str.upper` (as used on the ASCII level labels). -/
def strUpper (s : String) : String := String.mk (s.data.map Char.toUpper)

/-- `Logger.__get_format`: `color + bold + [date] LEVEL: + reset + color`. -/
def get_format (logger : Logger) (color : String) (log_level : LogLevel) : String :=
  color ++ BOLD ++ "[" ++ format_date logger ++ "] " ++
    strUpper (log_level_to_string logger (some log_level)) ++ ":" ++ RESET ++ color

/-- `Logger.__write_to_file`: open `logs.txt` in `'a+'` mode (append,
create when absent) and write the stripped text plus a newline. -/
def write_to_file (fs : Option String) (format : String) : Option String :=
  some (fs.getD "" ++ strip_format format ++ "\n")

/-- `Logger.info`: mirror the bare message to the file when enabled, then
print the colorized blue line and a reset line. -/
def info (logger : Logger) (fs : Option String) (format : String) :
    Logger × Option String × List String :=
  let fs := if logger.log_to_file then write_to_file fs format else fs
  (logger, fs, [get_format logger BLUE .Info ++ " " ++ format, RESET])

/-- `Logger.warning`: as `info`, in yellow. -/
def warning (logger : Logger) (fs : Option String) (format : String) :
    Logger × Option String × List String :=
  let fs := if logger.log_to_file then write_to_file fs format else fs
  (logger, fs, [get_format logger YELLOW .Warning ++ " " ++ format, RESET])

/-- `Logger.error`: as `info`, in red. -/
def error (logger : Logger) (fs : Option String) (format : String) :
    Logger × Option String × List String :=
  let fs := if logger.log_to_file then write_to_file fs format else fs
  (logger, fs, [get_format logger RED .Error ++ " " ++ format, RESET])

/-- `Logger.log`: dispatch on the current level.  (The source's
`case other: pass` arm is unreachable: the enum has no other values.) -/
def log (logger : Logger) (fs : Option String) (format : String) :
    Logger × Option String × List String :=
  match logger.log_level with
  | .Info => info logger fs format
  | .Warning => warning logger fs format
  | .Error => error logger fs format

/-- `Logger.reset`: set the level back to `Info`. -/
def reset (logger : Logger) : Logger := { logger with log_level := .Info }

/-- An argument passed to `set_level`: either an actual `LogLevel`, or any
other Python value (modelled by a string description of that value). -/
inductive LevelInput where
  | valid (l : LogLevel)
  | invalid (v : String)
deriving DecidableEq, Repr

/-- The `ValueError` message raised by `Logger.set_level`. -/
def invalidLevelMsg : String := "log_level must be LogLevel.\x7bInfo, Warning, Error\x7d"

/-- `Logger.set_level`: raise `ValueError` (the second component) when the
argument is not one of the three levels, leaving the state unchanged;
otherwise assign the level. -/
def set_level (logger : Logger) (log_level : LevelInput) : Logger × Option String :=
  match log_level with
  | .valid l =>
    if [LogLevel.Info, .Warning, .Error].contains l then
      ({ logger with log_level := l }, none)
    else (logger, some invalidLevelMsg)
  | .invalid _ => (logger, some invalidLevelMsg)

/-- `Logger.enable_file_logging`. -/
def enable_file_logging (logger : Logger) : Logger := { logger with log_to_file := true }

/-- `Logger.disable_file_logging`. -/
def disable_file_logging (logger : Logger) : Logger := { logger with log_to_file := false }

/-- `os.remove`: delete the file; raises `FileNotFoundError` when it does
not exist. -/
def osRemove (fs : Option String) : Except String (Option String) :=
  match fs with
  | some _ => .ok none
  | none => .error "FileNotFoundError"

/-- `Logger.clean_logs`: remove `logs.txt` only when it exists
(`os.path.exists` guard). -/
def clean_logs (fs : Option String) : Except String (Option String) :=
  if fs.isSome then osRemove fs else .ok fs

/-- No escape character occurs in the character list. -/
def escFreeL (l : List Char) : Bool := l.all (fun c => c != escChar)

/-- No escape character occurs in the string. -/
def escFree (s : String) : Bool := escFreeL s.data

/-- `Logger()` with the source's default arguments
(`log_level=LogLevel.Info`, `log_to_file=False`). -/
def Logger.default_new (date : Date) : Logger := Logger.new .Info false date

/-- The spec's wording of the date fields: "day and month zero-padded to
two digits" (prepend a zero below 10). -/
def spec_pad2 (n : Nat) : String := if n < 10 then "0" ++ Nat.repr n else Nat.repr n

/-- A logger with mirroring enabled, date 05/03/2024. -/
def mLogger : Logger := Logger.new .Info true ⟨5, 3, 2024⟩

/-- A default logger (mirroring disabled), date 05/03/2024. -/
def dLogger : Logger := Logger.new .Info false ⟨5, 3, 2024⟩

/-- A logger whose current level is `Warning`, mirroring disabled. -/
def wLogger : Logger := Logger.new .Warning false ⟨5, 3, 2024⟩

/-- Concatenation of a list of string pieces. -/
def concatStrs (l : List String) : String := l.foldr (fun a b => a ++ b) ""

/-! ### Helper lemmas about the escape stripper -/

theorem escFreeL_iff {l : List Char} : escFreeL l = true ↔ ∀ c ∈ l, c ≠ escChar := by
  simp [escFreeL, List.all_eq_true]

theorem matchEsc_length {l r : List Char} (h : matchEsc l = some r) : r.length ≤ l.length := by
  cases l with
  | nil => simp [matchEsc] at h
  | cons c rest =>
    by_cases hc : c = '['
    · subst hc
      simp only [matchEsc, if_true] at h
      cases heq : (rest.dropWhile isCsiParam).dropWhile isCsiInter with
      | nil => rw [heq] at h; simp at h
      | cons f r2 =>
        rw [heq] at h
        by_cases hf : isCsiFinal f = true
        · simp only [hf, if_true, Option.some.injEq] at h
          subst h
          have hsub : List.Sublist ((rest.dropWhile isCsiParam).dropWhile isCsiInter) rest :=
            (List.dropWhile_sublist _).trans (List.dropWhile_sublist _)
          have hlen := hsub.length_le
          rw [heq] at hlen
          simp only [List.length_cons] at hlen ⊢
          omega
        · simp [hf] at h
    · simp only [matchEsc] at h
      rw [if_neg hc] at h
      by_cases ht : isTwoByteFinal c = true
      · rw [if_pos ht] at h; cases h; simp
      · rw [if_neg ht] at h; simp at h

theorem stripAuxF_irrel :
    ∀ (f1 : Nat) (l : List Char) (f2 : Nat), l.length ≤ f1 → l.length ≤ f2 →
      stripAuxF f1 l = stripAuxF f2 l := by
  intro f1
  induction f1 with
  | zero =>
    intro l f2 h1 _
    have hl : l = [] := List.eq_nil_of_length_eq_zero (Nat.le_zero.mp h1)
    subst hl
    cases f2 <;> simp [stripAuxF]
  | succ f ih =>
    intro l f2 h1 h2
    cases l with
    | nil => cases f2 <;> simp [stripAuxF]
    | cons c rest =>
      cases f2 with
      | zero => simp at h2
      | succ f2' =>
        have hr1 : rest.length ≤ f := by simpa using h1
        have hr2 : rest.length ≤ f2' := by simpa using h2
        simp only [stripAuxF]
        by_cases hc : c = escChar
        · simp only [if_pos hc]
          cases hm : matchEsc rest with
          | some r =>
            have hr := matchEsc_length hm
            exact ih r f2' (le_trans hr hr1) (le_trans hr hr2)
          | none => rw [ih rest f2' hr1 hr2]
        · simp only [if_neg hc]
          rw [ih rest f2' hr1 hr2]

theorem stripChars_cons_of_ne {c : Char} (rest : List Char) (hc : c ≠ escChar) :
    stripChars (c :: rest) = c :: stripChars rest := by
  simp [stripChars, stripAuxF, hc]

theorem stripChars_esc_match {rest r : List Char} (hm : matchEsc rest = some r) :
    stripChars (escChar :: rest) = stripChars r := by
  have hr := matchEsc_length hm
  simp only [stripChars, List.length_cons, stripAuxF, if_pos rfl, hm]
  exact stripAuxF_irrel rest.length r r.length hr le_rfl

theorem stripChars_nil : stripChars [] = [] := rfl

theorem stripChars_append_escFree (p l : List Char) (hp : escFreeL p = true) :
    stripChars (p ++ l) = p ++ stripChars l := by
  induction p with
  | nil => simp
  | cons c p ih =>
    simp only [escFreeL, List.all_cons, Bool.and_eq_true, bne_iff_ne] at hp
    rw [List.cons_append, stripChars_cons_of_ne _ hp.1,
      ih (by simpa [escFreeL] using hp.2)]
    simp [List.cons_append]

theorem stripChars_escFree {l : List Char} (hl : escFreeL l = true) :
    stripChars l = l := by
  have h := stripChars_append_escFree l [] hl
  simpa [stripChars_nil] using h

theorem matchEsc_csi {ps : List Char} (hps : ps.all isCsiParam = true) {f : Char}
    (hf : isCsiFinal f = true) (hfp : isCsiParam f = false) (hfi : isCsiInter f = false)
    (l : List Char) : matchEsc ('[' :: (ps ++ f :: l)) = some l := by
  have hdrop : (ps ++ f :: l).dropWhile isCsiParam = f :: l := by
    induction ps with
    | nil => simp [List.dropWhile_cons, hfp]
    | cons a ps ih =>
      simp only [List.all_cons, Bool.and_eq_true] at hps
      rw [List.cons_append, List.dropWhile_cons_of_pos hps.1, ih hps.2]
  simp only [matchEsc, if_pos rfl, hdrop, List.dropWhile_cons, hfi]
  simp [hf]

theorem stripChars_csi {ps : List Char} (hps : ps.all isCsiParam = true) {f : Char}
    (hf : isCsiFinal f = true) (hfp : isCsiParam f = false) (hfi : isCsiInter f = false)
    (l : List Char) : stripChars (escChar :: '[' :: (ps ++ f :: l)) = stripChars l :=
  stripChars_esc_match (matchEsc_csi hps hf hfp hfi l)

theorem stripChars_RESET (l : List Char) : stripChars (RESET.data ++ l) = stripChars l := by
  have h : RESET.data ++ l = escChar :: '[' :: (['0'] ++ 'm' :: l) := rfl
  rw [h, stripChars_csi (by decide) (by decide) (by decide) (by decide)]

theorem stripChars_BOLD (l : List Char) : stripChars (BOLD.data ++ l) = stripChars l := by
  have h : BOLD.data ++ l = escChar :: '[' :: (['1'] ++ 'm' :: l) := rfl
  rw [h, stripChars_csi (by decide) (by decide) (by decide) (by decide)]

theorem stripChars_BLUE (l : List Char) : stripChars (BLUE.data ++ l) = stripChars l := by
  have h : BLUE.data ++ l = escChar :: '[' :: (['0', ';', '3', '6'] ++ 'm' :: l) := rfl
  rw [h, stripChars_csi (by decide) (by decide) (by decide) (by decide)]

theorem stripChars_YELLOW (l : List Char) : stripChars (YELLOW.data ++ l) = stripChars l := by
  have h : YELLOW.data ++ l = escChar :: '[' :: (['0', ';', '3', '3'] ++ 'm' :: l) := rfl
  rw [h, stripChars_csi (by decide) (by decide) (by decide) (by decide)]

theorem stripChars_RED (l : List Char) : stripChars (RED.data ++ l) = stripChars l := by
  have h : RED.data ++ l = escChar :: '[' :: (['0', ';', '3', '1'] ++ 'm' :: l) := rfl
  rw [h, stripChars_csi (by decide) (by decide) (by decide) (by decide)]

/-! ### The date string contains no escape characters -/

theorem digitChar_ne_esc (m : Nat) : Nat.digitChar m ≠ escChar := by
  by_cases h : m < 16
  · interval_cases m <;> decide
  · have h2 : Nat.digitChar m = '*' := by
      unfold Nat.digitChar
      repeat rw [if_neg (by omega)]
    rw [h2]; decide

theorem toDigitsCore_escFree (b : Nat) :
    ∀ (f n : Nat) (ds : List Char), (∀ c ∈ ds, c ≠ escChar) →
      ∀ c ∈ Nat.toDigitsCore b f n ds, c ≠ escChar := by
  intro f
  induction f with
  | zero => intro n ds hds; simpa [Nat.toDigitsCore] using hds
  | succ f ih =>
    intro n ds hds c hc
    have hcons : ∀ x ∈ Nat.digitChar (n % b) :: ds, x ≠ escChar := by
      intro x hx
      rcases List.mem_cons.mp hx with h | h
      · subst h; exact digitChar_ne_esc _
      · exact hds x h
    simp only [Nat.toDigitsCore] at hc
    split at hc
    · exact hcons c hc
    · exact ih (n / b) (Nat.digitChar (n % b) :: ds) hcons c hc

theorem escFree_repr (n : Nat) : escFree (Nat.repr n) = true := by
  rw [escFree, escFreeL_iff]
  intro c hc
  exact toDigitsCore_escFree 10 (n + 1) n [] (by simp) c hc

theorem escFree_append (a b : String) : escFree (a ++ b) = (escFree a && escFree b) := by
  simp [escFree, escFreeL, String.data_append, List.all_append]

theorem escFree_format_date (lg : Logger) : escFree (format_date lg) = true := by
  unfold format_date
  split <;> split <;>
    simp [escFree_append, escFree_repr, show escFree "0" = true from rfl,
      show escFree "/" = true from rfl]

theorem concatStrs_cons (p : String) (rest : List String) :
    concatStrs (p :: rest) = p ++ concatStrs rest := rfl

/-- Stripping a leading styling token from a concatenation of pieces. -/
theorem strip_concat_token (tok : String) (rest : List String)
    (htok : ∀ l, stripChars (tok.data ++ l) = stripChars l)
    (hfree : escFree tok = false)
    (ih : strip_format (concatStrs rest) = concatStrs (List.filter escFree rest)) :
    strip_format (concatStrs (tok :: rest)) =
      concatStrs (List.filter escFree (tok :: rest)) := by
  apply String.ext
  have hdata : (strip_format (concatStrs (tok :: rest))).data
      = stripChars (tok.data ++ (concatStrs rest).data) := by
    simp [strip_format, concatStrs_cons, String.data_append]
  rw [hdata, htok, List.filter_cons_of_neg (by simp [hfree])]
  exact congrArg String.data ih

/-- Stripping a concatenation of styling tokens and escape-free pieces
removes exactly the tokens and keeps every escape-free piece intact. -/
theorem strip_concat_pieces (pieces : List String)
    (hp : ∀ p ∈ pieces,
      p = RESET ∨ p = RED ∨ p = BLUE ∨ p = YELLOW ∨ p = BOLD ∨ escFree p = true) :
    strip_format (concatStrs pieces) = concatStrs (List.filter escFree pieces) := by
  induction pieces with
  | nil => rfl
  | cons p rest ih =>
    have hrest := ih (fun q hq => hp q (List.mem_cons_of_mem _ hq))
    rcases hp p (List.mem_cons_self _ _) with h | h | h | h | h | h
    · exact h ▸ strip_concat_token RESET rest stripChars_RESET (by decide) hrest
    · exact h ▸ strip_concat_token RED rest stripChars_RED (by decide) hrest
    · exact h ▸ strip_concat_token BLUE rest stripChars_BLUE (by decide) hrest
    · exact h ▸ strip_concat_token YELLOW rest stripChars_YELLOW (by decide) hrest
    · exact h ▸ strip_concat_token BOLD rest stripChars_BOLD (by decide) hrest
    · apply String.ext
      have hdata : (strip_format (concatStrs (p :: rest))).data
          = stripChars (p.data ++ (concatStrs rest).data) := by
        simp [strip_format, concatStrs_cons, String.data_append]
      rw [hdata, stripChars_append_escFree p.data _ h,
        List.filter_cons_of_pos h, concatStrs_cons, String.data_append]
      exact congrArg (p.data ++ ·) (congrArg String.data hrest)

/-- Stripping the exact console line that `info` prints. -/
theorem strip_info_line (lg : Logger) (msg : String) (h : escFree msg = true) :
    strip_format (get_format lg BLUE .Info ++ " " ++ msg) =
      "[" ++ format_date lg ++ "] INFO: " ++ msg := by
  have hup : strUpper (log_level_to_string lg (some LogLevel.Info)) = "INFO" := rfl
  have hsp : escFreeL (" ".data ++ msg.data) = true := by
    simp only [escFreeL, List.all_append, Bool.and_eq_true]
    exact ⟨by decide, h⟩
  have hlit : ∀ t : List Char,
      "] ".data ++ ("INFO".data ++ (":".data ++ (" ".data ++ t))) = "] INFO: ".data ++ t :=
    fun t => rfl
  apply String.ext
  show stripChars ((get_format lg BLUE .Info ++ " " ++ msg).data) = _
  rw [get_format, hup]
  simp only [String.data_append, List.append_assoc]
  rw [stripChars_BLUE, stripChars_BOLD,
    stripChars_append_escFree "[".data _ (by decide),
    stripChars_append_escFree (format_date lg).data _ (escFree_format_date lg),
    stripChars_append_escFree "] ".data _ (by decide),
    stripChars_append_escFree "INFO".data _ (by decide),
    stripChars_append_escFree ":".data _ (by decide),
    stripChars_RESET, stripChars_BLUE,
    stripChars_escFree hsp, hlit]

/-! ### The claims -/

/-- C1: the specification says each mirrored emit appends the formatted
line `[dd/mm/yyyy] LEVEL: message` (escape-stripped) to the log file, not
merely the bare message.  The code instead passes the bare message to
`__write_to_file`: `info("hello")` with mirroring enabled appends exactly
`"hello\n"`, which differs from the stripped formatted line. -/
theorem C1_file_write_divergence :
    (info mLogger none "hello").2.1 = some "hello\n" ∧
    ("hello\n" : String) ≠
      "[" ++ format_date mLogger ++ "] " ++ "INFO" ++ ": " ++ "hello" ++ "\n" := by
  constructor
  · decide
  · decide

/-- C2: for every logger state (whatever `log_level` holds), every file
state and every message, `info`, `warning` and `error` print exactly the
line `color+bold+[dd/mm/yyyy] LEVEL:+reset+color+space+message` with the
fixed per-severity color (blue, yellow, red), followed by a second line
holding only the reset code. -/
theorem C2_console_line_format (lg : Logger) (fs : Option String) (msg : String) :
    (info lg fs msg).2.2 =
      ["\x1b[0;36m" ++ "\x1b[1m" ++ "[" ++ format_date lg ++ "] " ++ "INFO" ++ ":" ++
        "\x1b[0m" ++ "\x1b[0;36m" ++ " " ++ msg, "\x1b[0m"] ∧
    (warning lg fs msg).2.2 =
      ["\x1b[0;33m" ++ "\x1b[1m" ++ "[" ++ format_date lg ++ "] " ++ "WARNING" ++ ":" ++
        "\x1b[0m" ++ "\x1b[0;33m" ++ " " ++ msg, "\x1b[0m"] ∧
    (error lg fs msg).2.2 =
      ["\x1b[0;31m" ++ "\x1b[1m" ++ "[" ++ format_date lg ++ "] " ++ "ERROR" ++ ":" ++
        "\x1b[0m" ++ "\x1b[0;31m" ++ " " ++ msg, "\x1b[0m"] := by
  refine ⟨rfl, rfl, rfl⟩

/-- C3: `log` produces exactly the console and file output of the emit
method matching the current severity: `warning` when the level is
`Warning`, `info` when `Info`, `error` when `Error`. -/
theorem C3_log_dispatch (lg : Logger) (fs : Option String) (msg : String) :
    (lg.log_level = .Info → log lg fs msg = info lg fs msg) ∧
    (lg.log_level = .Warning → log lg fs msg = warning lg fs msg) ∧
    (lg.log_level = .Error → log lg fs msg = error lg fs msg) := by
  refine ⟨?_, ?_, ?_⟩ <;> intro h <;> simp [log, h]

/-- C3 witness: with the level set to `Warning`, `log` equals `warning`. -/
theorem C3_log_dispatch_witness :
    wLogger.log_level = .Warning ∧ log wLogger none "m" = warning wLogger none "m" :=
  ⟨rfl, (C3_log_dispatch wLogger none "m").2.1 rfl⟩

/-- C4: after `reset` the current severity is `Info`, and `log` on the
reset state behaves exactly as `info` (until the level is changed again,
which only `set_level` and `reset` can do — see C10). -/
theorem C4_reset_then_log_is_info (lg : Logger) (fs : Option String) (msg : String) :
    (reset lg).log_level = .Info ∧ log (reset lg) fs msg = info (reset lg) fs msg :=
  ⟨rfl, rfl⟩

/-- C5: the date helper zero-pads day and month to two digits, leaves the
year unpadded and joins with slashes; 5/3/2024 gives `05/03/2024` and
25/12/2023 gives `25/12/2023`. -/
theorem C5_date_format (lg : Logger) :
    format_date lg =
      spec_pad2 lg.date.day ++ "/" ++ spec_pad2 lg.date.month ++ "/" ++
        Nat.repr lg.date.year ∧
    format_date (Logger.new .Info false ⟨5, 3, 2024⟩) = "05/03/2024" ∧
    format_date (Logger.new .Info false ⟨25, 12, 2023⟩) = "25/12/2023" :=
  ⟨rfl, by decide, by decide⟩

/-- C6: for every escape-free message, stripping the exact console line
that `info` prints yields `[dd/mm/yyyy] INFO: message` with zero residual
escape bytes; moreover the stripper deletes the styling tokens from any
concatenation of styling tokens and escape-free pieces — however many and
in whatever order — leaving every non-escape piece untouched. -/
theorem C6_strip_roundtrip (lg : Logger) (fs : Option String) (msg : String)
    (h : escFree msg = true) :
    strip_format (((info lg fs msg).2.2).headD "") =
      "[" ++ format_date lg ++ "] INFO: " ++ msg ∧
    escFree (strip_format (((info lg fs msg).2.2).headD "")) = true ∧
    (∀ pieces : List String,
      (∀ p ∈ pieces,
        p = RESET ∨ p = RED ∨ p = BLUE ∨ p = YELLOW ∨ p = BOLD ∨ escFree p = true) →
      strip_format (concatStrs pieces) = concatStrs (List.filter escFree pieces)) := by
  have hline : ((info lg fs msg).2.2).headD "" = get_format lg BLUE .Info ++ " " ++ msg := rfl
  rw [hline, strip_info_line lg msg h]
  refine ⟨rfl, ?_, fun pieces hp => strip_concat_pieces pieces hp⟩
  simp [escFree_append, escFree_format_date, h, show escFree "[" = true from rfl,
    show escFree "] INFO: " = true from rfl]

/-- C6 witness: the round trip on the concrete message `hello`,
date 05/03/2024. -/
theorem C6_strip_roundtrip_witness :
    escFree "hello" = true ∧
    strip_format (((info dLogger none "hello").2.2).headD "") =
      "[" ++ format_date dLogger ++ "] INFO: " ++ "hello" ∧
    escFree (strip_format (((info dLogger none "hello").2.2).headD "")) = true :=
  ⟨by decide, (C6_strip_roundtrip dLogger none "hello" (by decide)).1,
    (C6_strip_roundtrip dLogger none "hello" (by decide)).2.1⟩

/-- C7: `clean_logs` deletes the file when it exists; when the file does
not exist it raises nothing, deletes nothing and creates nothing. -/
theorem C7_clean_logs :
    (∀ s : String, clean_logs (some s) = .ok none) ∧ clean_logs none = .ok none :=
  ⟨fun _ => rfl, rfl⟩

/-- C8: `set_level` on a value outside the three levels raises
`ValueError` and leaves the state unchanged; on a valid level it assigns
it, and a subsequent `log` dispatches on the new level immediately. -/
theorem C8_set_level (lg : Logger) (l : LogLevel) (v : String) (fs : Option String)
    (msg : String) :
    set_level lg (.invalid v) = (lg, some invalidLevelMsg) ∧
    set_level lg (.valid l) = ({ lg with log_level := l }, none) ∧
    log (set_level lg (.valid l)).1 fs msg =
      (match l with
       | .Info => info (set_level lg (.valid l)).1 fs msg
       | .Warning => warning (set_level lg (.valid l)).1 fs msg
       | .Error => error (set_level lg (.valid l)).1 fs msg) := by
  refine ⟨rfl, ?_, ?_⟩ <;> cases l <;> rfl

/-- C9: with mirroring disabled — the state of a default-constructed
logger — no emit call touches the file system. -/
theorem C9_no_file_when_disabled (lg : Logger) (d : Date) (fs : Option String)
    (msg : String) (h : lg.log_to_file = false) :
    (Logger.default_new d).log_to_file = false ∧
    (info lg fs msg).2.1 = fs ∧ (warning lg fs msg).2.1 = fs ∧
    (error lg fs msg).2.1 = fs ∧ (log lg fs msg).2.1 = fs := by
  refine ⟨rfl, ?_, ?_, ?_, ?_⟩
  · simp [info, h]
  · simp [warning, h]
  · simp [error, h]
  · cases hl : lg.log_level <;> simp [log, hl, info, warning, error, h]

/-- C9 witness: a default logger with an absent file, message `x`. -/
theorem C9_no_file_when_disabled_witness :
    ((Logger.default_new ⟨5, 3, 2024⟩).log_to_file = false ∧
    (info dLogger none "x").2.1 = none ∧ (warning dLogger none "x").2.1 = none ∧
    (error dLogger none "x").2.1 = none ∧ (log dLogger none "x").2.1 = none) :=
  C9_no_file_when_disabled dLogger ⟨5, 3, 2024⟩ none "x" rfl

/-- C10: every emit call returns the logger state unchanged; the mutators
change exactly their own field. -/
theorem C10_emits_preserve_state (lg : Logger) (fs : Option String) (msg : String)
    (l : LogLevel) :
    (info lg fs msg).1 = lg ∧ (warning lg fs msg).1 = lg ∧ (error lg fs msg).1 = lg ∧
    (log lg fs msg).1 = lg ∧
    reset lg = { lg with log_level := .Info } ∧
    enable_file_logging lg = { lg with log_to_file := true } ∧
    disable_file_logging lg = { lg with log_to_file := false } ∧
    (set_level lg (.valid l)).1 = { lg with log_level := l } := by
  refine ⟨rfl, rfl, rfl, ?_, rfl, rfl, rfl, ?_⟩
  · cases hl : lg.log_level <;> simp [log, hl, info, warning, error]
  · cases l <;> rfl

end PyLog
